import Mathlib

/-!
Verification of the retrieval-and-derivation core of the Japanese stock
analyzer (`src/python/data_fetcher.py`), shallowly embedded in Lean 4.

The upstream market-data library (`yfinance`) is modelled as an oracle
(`Provider`): per ticker and per retry attempt it yields either a metadata
mapping or an error, and either a list of price bars or an error; the
fallback history lookup is keyed by ticker and period string.  Floating
point is modelled with `ℚ`; Python's 2-decimal `round` is modelled with
round-half-to-even on rationals.  The wall-clock timestamp field
(`last_updated`) of the result record is omitted from the model.
-/

instance {ε α : Type} [DecidableEq ε] [DecidableEq α] : DecidableEq (Except ε α)
  | .ok a, .ok b =>
    if h : a = b then .isTrue (by rw [h]) else .isFalse (by intro hh; cases hh; exact h rfl)
  | .error a, .error b =>
    if h : a = b then .isTrue (by rw [h]) else .isFalse (by intro hh; cases hh; exact h rfl)
  | .ok _, .error _ => .isFalse (by intro hh; cases hh)
  | .error _, .ok _ => .isFalse (by intro hh; cases hh)

namespace DataFetcher

/-- A value stored under a name-candidate key of the metadata mapping:
either a string or some non-string object (the source checks
`isinstance(name, str)`). -/
inductive MetaVal where
  | str (s : String)
  | other
deriving DecidableEq

/-- The provider metadata mapping (`stock.info`), restricted to the fields
the source reads.  `none` models an absent key (`info.get(k, d)` then
returns the default `d`); numeric fields are modelled as rationals. -/
structure Metadata where
  trailingPE : Option ℚ := none
  trailingEps : Option ℚ := none
  priceToBook : Option ℚ := none
  bookValue : Option ℚ := none
  returnOnEquity : Option ℚ := none
  dividendYield : Option ℚ := none
  marketCap : Option ℚ := none
  sector : Option String := none
  industry : Option String := none
  longName : Option MetaVal := none
  shortName : Option MetaVal := none
  name : Option MetaVal := none
deriving DecidableEq

/-- One row of the historical price DataFrame: close price and volume
(`latest_data.get('Volume', 0)` defaults an absent volume to 0).
Bars are ordered oldest first, as pandas returns them. -/
structure Bar where
  close : ℚ
  volume : Option ℤ := none
deriving DecidableEq

/-- The external market-data provider, as a deterministic oracle.
`infoResult`/`histResult` take the ticker symbol and the zero-based retry
attempt index (the upstream is unreliable, so repeated identical calls may
differ); `fallback` takes the ticker and the period string of the fallback
history call; `jitter` is the `random.uniform(0, 1)` draw used for the
backoff of a given attempt. -/
structure Provider where
  infoResult : String → Nat → Except String Metadata
  histResult : String → Nat → Except String (List Bar)
  fallback : String → String → Except String (List Bar)
  jitter : Nat → ℚ

/-- `self.max_retries = 3` -/
def max_retries : Nat := 3

/-- `self.base_delay = 2` -/
def base_delay : ℚ := 2

/-- Round-half-to-even of a rational to an integer, the rounding mode of
Python's builtin `round`. -/
def roundHalfEven (x : ℚ) : ℤ :=
  let n := ⌊x⌋
  let r := x - n
  if r < 1/2 then n
  else if 1/2 < r then n + 1
  else if n % 2 = 0 then n else n + 1

/-- Python's `round(x, 2)`. -/
def pyRound2 (x : ℚ) : ℚ := (roundHalfEven (x * 100) : ℚ) / 100

/-- Whitespace for Python's `str.strip()` (the ASCII whitespace characters;
the source only ever strips company names). -/
def pyIsSpace (c : Char) : Bool :=
  c = ' ' ∨ c = '\t' ∨ c = '\n' ∨ c = '\r' ∨ c = '\x0b' ∨ c = '\x0c'

/-- Python's `str.strip()`: drop leading and trailing whitespace. -/
def pyStrip (s : String) : String :=
  ⟨((s.data.dropWhile pyIsSpace).reverse.dropWhile pyIsSpace).reverse⟩

/-- Modelled from Python's builtin `str.isdigit` on a character: true for
Unicode decimal digits.  The model covers the ASCII digits U+0030–U+0039
and the fullwidth digits U+FF10–U+FF19, a subset of the full Unicode set
Python accepts. -/
def pyIsDigitChar (c : Char) : Bool :=
  ('0' ≤ c ∧ c ≤ '9') ∨ ('０' ≤ c ∧ c ≤ '９')

/-- Python's `s.isdigit()`: nonempty and every character a digit. -/
def pyIsDigit (s : String) : Bool :=
  s ≠ "" ∧ s.data.all pyIsDigitChar

/-- The endpoint's input validation (`data_fetcher.py:260`):
`stock_code.isdigit() and len(stock_code) == 4`. -/
def validateCode (stock_code : String) : Bool :=
  pyIsDigit stock_code && stock_code.length == 4

/-- A string of exactly 4 ASCII digits (the spec's StockCode invariant). -/
def isFourAsciiDigits (s : String) : Bool :=
  s.length == 4 && s.data.all (fun c => '0' ≤ c && c ≤ '9')

/-- `ticker_symbol = f"{stock_code}.T"` (`data_fetcher.py:32`). -/
def toTicker (stock_code : String) : String := stock_code ++ ".T"

/-- The processed price dictionary of `_process_price_data`. -/
structure PriceSnapshot where
  current_price : ℚ
  price_change : ℚ
  change_percent : ℚ
  volume : ℤ
deriving DecidableEq

/-- `_process_price_data` (`data_fetcher.py:137-163`): empty history gives
the all-zero snapshot; otherwise the latest bar and the second-to-last bar
(`hist_data.tail(2).iloc[0]`, or the latest itself when only one row
exists) give price, change and percent change, each rounded to 2 decimals,
with the divide guarded by `previous_price > 0`. -/
def _process_price_data (hist_data : List Bar) : PriceSnapshot :=
  match hist_data.getLast? with
  | none => ⟨0, 0, 0, 0⟩
  | some latest_data =>
    let previous_data := hist_data.dropLast.getLast?.getD latest_data
    let current_price := pyRound2 latest_data.close
    let previous_price := pyRound2 previous_data.close
    let price_change := pyRound2 (current_price - previous_price)
    let change_percent :=
      if previous_price > 0 then pyRound2 (price_change / previous_price * 100) else 0
    ⟨current_price, price_change, change_percent, latest_data.volume.getD 0⟩

/-- The four derived ratios of `_calculate_financial_metrics_safe`. -/
structure FinancialMetrics where
  per : ℚ
  pbr : ℚ
  roe : ℚ
  dividend : ℚ
deriving DecidableEq

/-- `_calculate_financial_metrics_safe` (`data_fetcher.py:165-230`).
Python's `x and x > 0` on a number defaulted to 0 is `x > 0`; the bare
`if return_on_equity:` / `if dividend_yield:` is truthiness, i.e. the
defaulted value being nonzero. -/
def _calculate_financial_metrics_safe (info : Metadata) (current_price : ℚ) :
    FinancialMetrics :=
  let per :=
    let trailing_pe := info.trailingPE.getD 0
    if trailing_pe > 0 then pyRound2 trailing_pe
    else
      let eps := info.trailingEps.getD 0
      if eps > 0 ∧ current_price > 0 then pyRound2 (current_price / eps) else 0
  let pbr :=
    let price_to_book := info.priceToBook.getD 0
    if price_to_book > 0 then pyRound2 price_to_book
    else
      let book_value := info.bookValue.getD 0
      if book_value > 0 ∧ current_price > 0 then pyRound2 (current_price / book_value)
      else 0
  let roe :=
    let return_on_equity := info.returnOnEquity.getD 0
    if return_on_equity ≠ 0 then pyRound2 (return_on_equity * 100) else 0
  let dividend :=
    let dividend_yield := info.dividendYield.getD 0
    if dividend_yield ≠ 0 then pyRound2 (dividend_yield * 100) else 0
  ⟨per, pbr, roe, dividend⟩

/-- The per-candidate test of `_get_company_name`
(`data_fetcher.py:244`): `if name and isinstance(name, str) and
len(name.strip()) > 0: return name.strip()`.  A falsy (empty) string also
has an empty strip, so truthiness adds nothing for strings. -/
def nameCandidate (v : Option MetaVal) : Option String :=
  match v with
  | some (.str s) => if (pyStrip s).length > 0 then some (pyStrip s) else none
  | _ => none

/-- `_get_company_name` (`data_fetcher.py:232-248`): first candidate among
longName, shortName, name that is a string whose stripped form is
nonempty, returned stripped; otherwise the synthesized fallback. -/
def _get_company_name (info : Metadata) (stock_code : String) : String :=
  match nameCandidate info.longName with
  | some n => n
  | none =>
    match nameCandidate info.shortName with
    | some n => n
    | none =>
      match nameCandidate info.name with
      | some n => n
      | none => "銘柄コード: " ++ stock_code

/-- One run of the `_fetch_with_retry` loop: its outcome, the backoff
sleeps performed (attempt index paired with the slept duration in
seconds), and the attempt indices that were entered. -/
structure RetryRun where
  result : Except String (Metadata × List Bar)
  sleeps : List (Nat × ℚ)
  attempts : List Nat

/-- The body of `for attempt in range(self.max_retries)` in
`_fetch_with_retry` (`data_fetcher.py:81-113`), with explicit fuel for the
remaining iterations.  A metadata-lookup failure is swallowed (`stock_info
= {}`); a non-empty history or the final attempt returns; a history
failure either sleeps `base_delay * 2^attempt + jitter` and retries, or on
the final attempt re-raises.  Falling out of the loop returns
`({}, empty)` (`data_fetcher.py:113`). -/
def fetchLoop (p : Provider) (ticker_symbol : String) :
    Nat → Nat → RetryRun
  | _, 0 => ⟨.ok ({}, []), [], []⟩
  | attempt, fuel + 1 =>
    let stock_info : Metadata :=
      match p.infoResult ticker_symbol attempt with
      | .ok i => i
      | .error _ => {}
    match p.histResult ticker_symbol attempt with
    | .ok hist_data =>
      if hist_data ≠ [] ∨ attempt = max_retries - 1 then
        ⟨.ok (stock_info, hist_data), [], [attempt]⟩
      else
        let rest := fetchLoop p ticker_symbol (attempt + 1) fuel
        ⟨rest.result, rest.sleeps, attempt :: rest.attempts⟩
    | .error e =>
      if attempt < max_retries - 1 then
        let rest := fetchLoop p ticker_symbol (attempt + 1) fuel
        ⟨rest.result,
          (attempt, base_delay * 2 ^ attempt + p.jitter attempt) :: rest.sleeps,
          attempt :: rest.attempts⟩
      else ⟨.error e, [], [attempt]⟩

/-- `_fetch_with_retry` (`data_fetcher.py:77-113`): the loop started at
attempt 0 with `max_retries` iterations available. -/
def _fetch_with_retry (p : Provider) (ticker_symbol : String) : RetryRun :=
  fetchLoop p ticker_symbol 0 max_retries

/-- The `_get_historical_data_fallback` loop body over the remaining
periods: result paired with the trace of periods actually queried.
A failing query is swallowed (`continue`); a non-empty result returns
immediately. -/
def fallbackLoop (p : Provider) (ticker_symbol : String) :
    List String → List Bar × List String
  | [] => ([], [])
  | period :: rest =>
    match p.fallback ticker_symbol period with
    | .ok data =>
      if data ≠ [] then (data, [period])
      else
        let r := fallbackLoop p ticker_symbol rest
        (r.1, period :: r.2)
    | .error _ =>
      let r := fallbackLoop p ticker_symbol rest
      (r.1, period :: r.2)

/-- The period list of `_get_historical_data_fallback`
(`data_fetcher.py:119`). -/
def fallbackPeriods : List String := ["6mo", "3mo", "1mo", "5d"]

/-- `_get_historical_data_fallback` (`data_fetcher.py:115-135`). -/
def _get_historical_data_fallback (p : Provider) (ticker_symbol : String) :
    List Bar × List String :=
  fallbackLoop p ticker_symbol fallbackPeriods

/-- The API-level result record of `get_stock_data`
(`data_fetcher.py:52-68`); the wall-clock `last_updated` field is
omitted. -/
structure Report where
  stock_code : String
  name : String
  price : ℚ
  change : ℚ
  change_percent : ℚ
  volume : ℤ
  market_cap : ℚ
  per : ℚ
  pbr : ℚ
  roe : ℚ
  dividend : ℚ
  sector : String
  industry : String
  data_quality : String
deriving DecidableEq

/-- `f"銘柄コード {stock_code} のデータが見つかりません"`
(`data_fetcher.py:43`). -/
def notFoundMsg (stock_code : String) : String :=
  "銘柄コード " ++ stock_code ++ " のデータが見つかりません"

/-- The wrapping of any error by the outer handler of `get_stock_data`
(`data_fetcher.py:75`). -/
def wrapMsg (stock_code : String) (e : String) : String :=
  "銘柄コード " ++ stock_code ++ " のデータ取得に失敗しました: " ++ e

/-- `get_stock_data` (`data_fetcher.py:24-75`): retry fetch; on an empty
1-year series run the fallback; a still-empty series raises the
not-found `ValueError`; otherwise derive prices, metrics and name and
assemble the result.  Every raised error is re-wrapped by the outer
handler. -/
def get_stock_data (p : Provider) (stock_code : String) : Except String Report :=
  let ticker_symbol := toTicker stock_code
  match (_fetch_with_retry p ticker_symbol).result with
  | .error e => .error (wrapMsg stock_code e)
  | .ok (stock_info, hist0) =>
    let hist_data :=
      if hist0 = [] then (_get_historical_data_fallback p ticker_symbol).1 else hist0
    if hist_data = [] then .error (wrapMsg stock_code (notFoundMsg stock_code))
    else
      let price_data := _process_price_data hist_data
      let financial_data :=
        _calculate_financial_metrics_safe stock_info price_data.current_price
      .ok
        { stock_code := stock_code
          name := _get_company_name stock_info stock_code
          price := price_data.current_price
          change := price_data.price_change
          change_percent := price_data.change_percent
          volume := price_data.volume
          market_cap := stock_info.marketCap.getD 0
          per := financial_data.per
          pbr := financial_data.pbr
          roe := financial_data.roe
          dividend := financial_data.dividend
          sector := stock_info.sector.getD "不明"
          industry := stock_info.industry.getD "不明"
          data_quality := if hist_data ≠ [] then "good" else "limited" }

/-- An HTTP-level response of the `/api/stock/<stock_code>` endpoint:
either the serialized report or an error status with a message. -/
inductive ApiResponse where
  | ok (r : Report)
  | err (status : Nat) (msg : String)
deriving DecidableEq

/-- The invalid-code message of the endpoint (`data_fetcher.py:261`). -/
def invalidCodeMsg : String := "正しい4桁の銘柄コードを入力してください"

/-- `get_stock_info`, the `/api/stock/<stock_code>` endpoint
(`data_fetcher.py:253-269`): validation, then the core fetch, errors
mapped to 500. -/
def get_stock_info (p : Provider) (stock_code : String) : ApiResponse :=
  if ¬ validateCode stock_code then .err 400 invalidCodeMsg
  else
    match get_stock_data p stock_code with
    | .ok data => .ok data
    | .error e => .err 500 e

/-- The qualification test as the specification words it: a candidate
qualifies when it is a string whose stripped content is non-empty, and is
then returned stripped. -/
def specQualifies (v : Option MetaVal) : Option String :=
  match v with
  | some (.str s) => if pyStrip s ≠ "" then some (pyStrip s) else none
  | _ => none

/-- The company-name selection as the specification words it, stated
independently of `_get_company_name` for comparison: the first candidate
among longName, shortName, name that qualifies per `specQualifies`;
absent, non-string or whitespace-only candidates are skipped; if none
qualifies, the synthesized fallback. -/
def companyNameSpec (info : Metadata) (stock_code : String) : String :=
  (((specQualifies info.longName).orElse fun _ =>
      (specQualifies info.shortName).orElse fun _ => specQualifies info.name).getD
    ("銘柄コード: " ++ stock_code))

/-! Concrete providers and metadata used to evaluate the model at the
inputs the specification singles out. -/

/-- A provider that always answers the 1-year history with the two bars
close = [100, 105] and empty metadata. -/
def providerTwoBars : Provider where
  infoResult _ _ := .ok {}
  histResult _ _ := .ok [⟨100, some 1000⟩, ⟨105, some 1200⟩]
  fallback _ _ := .ok []
  jitter _ := 0

/-- The report `get_stock_data` produces from `providerTwoBars` for code
"7203". -/
def reportTwoBars : Report where
  stock_code := "7203"
  name := "銘柄コード: 7203"
  price := 105
  change := 5
  change_percent := 5
  volume := 1200
  market_cap := 0
  per := 0
  pbr := 0
  roe := 0
  dividend := 0
  sector := "不明"
  industry := "不明"
  data_quality := "good"

/-- A provider whose first 1-year attempt completes with an empty series
without raising and whose second attempt yields one bar. -/
def providerEmptyThenData : Provider where
  infoResult _ _ := .ok {}
  histResult _ attempt := if attempt = 0 then .ok [] else .ok [⟨105, none⟩]
  fallback _ _ := .ok []
  jitter _ := 0

/-- A provider whose history lookup raises on every attempt, with a
distinct message on the final attempt. -/
def providerAlwaysRaises : Provider where
  infoResult _ _ := .ok {}
  histResult _ attempt := if attempt = 2 then .error "boom2" else .error "boom"
  fallback _ _ := .error "boom"
  jitter _ := 0

/-- A provider that answers every history window, retry or fallback, with
an empty series. -/
def providerAllEmpty : Provider where
  infoResult _ _ := .ok {}
  histResult _ _ := .ok []
  fallback _ _ := .ok []
  jitter _ := 0

/-- A provider whose fallback history is empty for 6mo and 3mo, one bar
for 1mo, and one bar for 5d (so a query of 5d would be detectable). -/
def providerFallback1mo : Provider where
  infoResult _ _ := .ok {}
  histResult _ _ := .ok []
  fallback _ period := if period = "1mo" ∨ period = "5d" then .ok [⟨105, none⟩] else .ok []
  jitter _ := 0

/-- Metadata carrying negative return-on-equity and dividend-yield
fractions. -/
def infoNeg : Metadata where
  returnOnEquity := some (-(1 : ℚ)/20)
  dividendYield := some (-(1 : ℚ)/50)

/-- Metadata whose longName is whitespace-only and whose shortName is a
padded string. -/
def infoPaddedName : Metadata where
  longName := some (.str "   ")
  shortName := some (.str " Toyota Motor ")

end DataFetcher

/-! ## Helper lemmas -/

namespace DataFetcher

lemma head?_dropWhile_false (p : Char → Bool) :
    ∀ (l : List Char) (c : Char), (l.dropWhile p).head? = some c → p c = false := by
  intro l
  induction l with
  | nil => intro c h; simp [List.dropWhile] at h
  | cons a t ih =>
    intro c h
    rw [List.dropWhile_cons] at h
    by_cases ha : p a
    · rw [if_pos ha] at h; exact ih c h
    · rw [if_neg ha] at h
      simp only [List.head?_cons, Option.some.injEq] at h
      rw [← h]
      exact Bool.eq_false_iff.mpr ha

lemma getLast?_dropWhile (p : Char → Bool) :
    ∀ l : List Char, l.dropWhile p ≠ [] → (l.dropWhile p).getLast? = l.getLast? := by
  intro l
  induction l with
  | nil => simp
  | cons a t ih =>
    intro h
    rw [List.dropWhile_cons] at h ⊢
    by_cases ha : p a
    · rw [if_pos ha] at h ⊢
      rcases t with _ | ⟨b, t'⟩
      · simp [List.dropWhile] at h
      · rw [List.getLast?_cons_cons]
        exact ih h
    · rw [if_neg ha]

lemma pyStrip_head_not_space (s : String) (c : Char) :
    (pyStrip s).data.head? = some c → pyIsSpace c = false := by
  intro h
  unfold pyStrip at h
  rw [List.head?_reverse] at h
  have hne : (s.data.dropWhile pyIsSpace).reverse.dropWhile pyIsSpace ≠ [] := by
    intro hnil
    rw [hnil] at h
    simp at h
  rw [getLast?_dropWhile pyIsSpace _ hne, List.getLast?_reverse] at h
  exact head?_dropWhile_false pyIsSpace _ c h

lemma pyStrip_getLast_not_space (s : String) (c : Char) :
    (pyStrip s).data.getLast? = some c → pyIsSpace c = false := by
  intro h
  unfold pyStrip at h
  rw [List.getLast?_reverse] at h
  exact head?_dropWhile_false pyIsSpace _ c h

lemma string_eq_iff_data (s t : String) : s = t ↔ s.data = t.data :=
  ⟨fun h => by rw [h], fun h => by cases s; cases t; exact congrArg String.mk h⟩

lemma fetchLoop_attempts_length (p : Provider) (t : String) :
    ∀ (fuel attempt : Nat), (fetchLoop p t attempt fuel).attempts.length ≤ fuel := by
  intro fuel
  induction fuel with
  | zero => intro attempt; simp [fetchLoop]
  | succ f ih =>
    intro attempt
    rcases hh : p.histResult t attempt with e | bars
    · by_cases hlt : attempt < max_retries - 1
      · simp only [fetchLoop, hh, if_pos hlt, List.length_cons]
        exact Nat.succ_le_succ (ih _)
      · simp [fetchLoop, hh, hlt]
    · by_cases hb : bars ≠ [] ∨ attempt = max_retries - 1
      · simp [fetchLoop, hh, hb]
      · simp only [fetchLoop, hh, if_neg hb, List.length_cons]
        exact Nat.succ_le_succ (ih _)

lemma fetchLoop_sleeps_spec (p : Provider) (t : String) :
    ∀ (fuel attempt i : Nat) (d : ℚ),
      (i, d) ∈ (fetchLoop p t attempt fuel).sleeps →
      (∃ e, p.histResult t i = .error e) ∧ i < max_retries - 1 ∧
        d = base_delay * 2 ^ i + p.jitter i := by
  intro fuel
  induction fuel with
  | zero => intro attempt i d h; simp [fetchLoop] at h
  | succ f ih =>
    intro attempt i d h
    rcases hh : p.histResult t attempt with e | bars
    · by_cases hlt : attempt < max_retries - 1
      · simp only [fetchLoop, hh, if_pos hlt, List.mem_cons] at h
        rcases h with h | h
        · rw [Prod.mk.injEq] at h
          refine ⟨⟨e, ?_⟩, ?_, ?_⟩
          · rw [h.1]; exact hh
          · rw [h.1]; exact hlt
          · rw [h.2, h.1]
        · exact ih _ i d h
      · simp [fetchLoop, hh, hlt] at h
    · by_cases hb : bars ≠ [] ∨ attempt = max_retries - 1
      · simp [fetchLoop, hh, hb] at h
      · simp only [fetchLoop, hh, if_neg hb] at h
        exact ih _ i d h

lemma roundHalfEven_intCast (n : ℤ) : roundHalfEven (n : ℚ) = n := by
  unfold roundHalfEven
  rw [Int.floor_intCast]
  norm_num

lemma pyRound2_intCast (n : ℤ) : pyRound2 (n : ℚ) = n := by
  unfold pyRound2
  have h : ((n : ℚ) * 100) = ((n * 100 : ℤ) : ℚ) := by push_cast; ring
  rw [h, roundHalfEven_intCast]
  push_cast
  field_simp

lemma fallbackLoop_trace_ordered (p : Provider) (t : String) :
    ∀ ps : List String, (fallbackLoop p t ps).2 <+: ps := by
  intro ps
  induction ps with
  | nil => simp [fallbackLoop]
  | cons period rest ih =>
    rcases hh : p.fallback t period with e | data
    · simp only [fallbackLoop, hh]
      exact (List.prefix_cons_inj period).mpr ih
    · by_cases hd : data ≠ []
      · simp only [fallbackLoop, hh, if_pos hd]
        exact ⟨rest, rfl⟩
      · simp only [fallbackLoop, hh, if_neg hd]
        exact (List.prefix_cons_inj period).mpr ih

end DataFetcher

/-! ## Claims -/

namespace DataFetcher

/-- C1, as stated, is false on the code: `_fetch_with_retry` on a provider
whose first attempt completes with an empty price series *without raising*
proceeds to the second attempt (whose data it returns) with no backoff
sleep at all — the sleep sits only in the exception handler. -/
theorem C1_counterexample :
    (_fetch_with_retry providerEmptyThenData (toTicker "7203")).attempts = [0, 1] ∧
    (_fetch_with_retry providerEmptyThenData (toTicker "7203")).result =
      .ok ({}, [⟨105, none⟩]) ∧
    (_fetch_with_retry providerEmptyThenData (toTicker "7203")).sleeps = [] := by
  decide

/-- C1 (amended): every backoff sleep of a `_fetch_with_retry` run lies
between a non-final attempt whose price-history lookup raised and the next
attempt, and lasts exactly `base_delay * 2^attemptIndex + jitter` seconds;
conversely a raising first attempt is always followed by such a sleep.
Attempts that complete with an empty series without raising proceed to the
next attempt with no sleep. -/
theorem C1_backoff_only_after_raising_attempt (p : Provider) (t : String) :
    (∀ i d, (i, d) ∈ (_fetch_with_retry p t).sleeps →
      (∃ e, p.histResult t i = .error e) ∧ i < max_retries - 1 ∧
        d = base_delay * 2 ^ i + p.jitter i) ∧
    (∀ e, p.histResult t 0 = .error e →
      (0, base_delay * 2 ^ 0 + p.jitter 0) ∈ (_fetch_with_retry p t).sleeps) := by
  constructor
  · intro i d h
    exact fetchLoop_sleeps_spec p t max_retries 0 i d h
  · intro e he
    show (0, base_delay * 2 ^ 0 + p.jitter 0) ∈ (fetchLoop p t 0 (2 + 1)).sleeps
    simp [fetchLoop, he, max_retries]

/-- Witness for C1's amended theorem at a concrete always-raising
provider: the first backoff sleep of 2 seconds occurs. -/
theorem C1_witness :
    ((0 : Nat), (2 : ℚ)) ∈
      (_fetch_with_retry providerAlwaysRaises (toTicker "0000")).sleeps := by
  have h :=
    (C1_backoff_only_after_raising_attempt providerAlwaysRaises (toTicker "0000")).2
      "boom" rfl
  simpa [base_delay, providerAlwaysRaises] using h

/-- C2: `_get_historical_data_fallback` queries the windows in the fixed
order 6mo, 3mo, 1mo, 5d (the queried trace is a prefix of that list);
with empty 6mo/3mo and non-empty 1mo it returns the 1mo data and never
queries 5d; with every window empty it returns an empty series having
queried all four windows. -/
theorem C2_fallback_order (p : Provider) (t : String) :
    ((_get_historical_data_fallback p t).2 <+: fallbackPeriods) ∧
    (∀ bs : List Bar, bs ≠ [] →
      p.fallback t "6mo" = .ok [] → p.fallback t "3mo" = .ok [] →
      p.fallback t "1mo" = .ok bs →
      (_get_historical_data_fallback p t).1 = bs ∧
        "5d" ∉ (_get_historical_data_fallback p t).2) ∧
    ((∀ w ∈ fallbackPeriods, p.fallback t w = .ok []) →
      _get_historical_data_fallback p t = ([], fallbackPeriods)) := by
  refine ⟨fallbackLoop_trace_ordered p t fallbackPeriods, ?_, ?_⟩
  · intro bs hbs h6 h3 h1
    constructor
    · simp [_get_historical_data_fallback, fallbackPeriods, fallbackLoop, h6, h3, h1, hbs]
    · simp [_get_historical_data_fallback, fallbackPeriods, fallbackLoop, h6, h3, h1, hbs]
  · intro hall
    have h6 := hall "6mo" (by simp [fallbackPeriods])
    have h3 := hall "3mo" (by simp [fallbackPeriods])
    have h1 := hall "1mo" (by simp [fallbackPeriods])
    have h5 := hall "5d" (by simp [fallbackPeriods])
    simp [_get_historical_data_fallback, fallbackPeriods, fallbackLoop, h6, h3, h1, h5]

/-- Witness for C2 at a provider empty for 6mo/3mo with one bar for 1mo:
the fallback returns the 1mo bar and never queries 5d. -/
theorem C2_witness :
    (_get_historical_data_fallback providerFallback1mo (toTicker "0000")).1 =
      [⟨105, none⟩] ∧
    "5d" ∉ (_get_historical_data_fallback providerFallback1mo (toTicker "0000")).2 :=
  (C2_fallback_order providerFallback1mo (toTicker "0000")).2.1
    [⟨105, none⟩] (by decide) (by decide) (by decide) (by decide)

/-- C3, as stated, is false on the code: for code "7203" with closes
[100, 105] the report's change_percent is exactly 5 (the change divided by
the *previous* close, times 100), which is not approximately 4.76 — it is
0.24 away. -/
theorem C3_counterexample :
    (get_stock_data providerTwoBars "7203").toOption.map Report.change_percent =
      some 5 ∧
    (1/5 : ℚ) ≤ |(5 : ℚ) - 476/100| := by
  constructor
  · have h105 : pyRound2 (105 : ℚ) = 105 := by simpa using pyRound2_intCast 105
    have h100 : pyRound2 (100 : ℚ) = 100 := by simpa using pyRound2_intCast 100
    have h5 : pyRound2 (5 : ℚ) = 5 := by simpa using pyRound2_intCast 5
    have hfetch : (_fetch_with_retry providerTwoBars (toTicker "7203")).result =
        .ok ({}, [⟨100, some 1000⟩, ⟨105, some 1200⟩]) := rfl
    simp only [get_stock_data, hfetch]
    simp only [List.cons_ne_nil, ite_false, if_false, if_neg, List.getLast?_cons_cons,
      List.getLast?_singleton, List.dropLast, _process_price_data]
    norm_num [h105, h100, h5]
    exact ⟨_, rfl, rfl⟩
  · rw [show (5 : ℚ) - 476/100 = 6/25 by norm_num,
      abs_of_nonneg (by norm_num : (0 : ℚ) ≤ 6/25)]
    norm_num

/-- C3 (amended): for code "7203" with a provider returning the two-bar
close series [100, 105], the report has price = 105.0, change = 5.0 and
change_percent = 5.0 (change divided by the previous close, times 100,
rounded to 2 decimals). -/
theorem C3_report_values :
    (get_stock_data providerTwoBars "7203").toOption.map
      (fun r => (r.price, r.change, r.change_percent)) = some (105, 5, 5) := by
  have h105 : pyRound2 (105 : ℚ) = 105 := by simpa using pyRound2_intCast 105
  have h100 : pyRound2 (100 : ℚ) = 100 := by simpa using pyRound2_intCast 100
  have h5 : pyRound2 (5 : ℚ) = 5 := by simpa using pyRound2_intCast 5
  have hfetch : (_fetch_with_retry providerTwoBars (toTicker "7203")).result =
      .ok ({}, [⟨100, some 1000⟩, ⟨105, some 1200⟩]) := rfl
  simp only [get_stock_data, hfetch]
  simp only [List.cons_ne_nil, ite_false, if_false, if_neg, List.getLast?_cons_cons,
    List.getLast?_singleton, List.dropLast, _process_price_data]
  norm_num [h105, h100, h5]
  exact ⟨_, rfl, rfl, rfl, rfl⟩

end DataFetcher

namespace DataFetcher

/-- C4, as stated, is false on the code: a negative returnOnEquity
fraction (−1/20) yields roe = −5 and a negative dividendYield fraction
(−1/50) yields dividend = −2 — negative metric values, not 0, because the
bare truthiness guards let negative numbers through. -/
theorem C4_counterexample :
    (_calculate_financial_metrics_safe infoNeg 0).roe = -5 ∧
    (_calculate_financial_metrics_safe infoNeg 0).dividend = -2 ∧
    (-5 : ℚ) < 0 ∧ (-2 : ℚ) < 0 := by
  have hm5 : pyRound2 (-5 : ℚ) = -5 := by simpa using pyRound2_intCast (-5)
  have hm2 : pyRound2 (-2 : ℚ) = -2 := by simpa using pyRound2_intCast (-2)
  refine ⟨?_, ?_, by norm_num, by norm_num⟩
  · norm_num [_calculate_financial_metrics_safe, infoNeg]
    exact hm5
  · norm_num [_calculate_financial_metrics_safe, infoNeg]
    exact hm2

/-- C4 (amended): per and pbr default to 0 when their source fields are
absent or non-positive; roe and dividendYield default to 0 only when the
source fraction is absent or zero — a present nonzero fraction r (negative
included) yields round(r × 100, 2), so negative fractions produce negative
metric values. -/
theorem C4_metric_defaults (info : Metadata) (current_price : ℚ) :
    (info.trailingPE.getD 0 ≤ 0 → info.trailingEps.getD 0 ≤ 0 →
      (_calculate_financial_metrics_safe info current_price).per = 0) ∧
    (info.priceToBook.getD 0 ≤ 0 → info.bookValue.getD 0 ≤ 0 →
      (_calculate_financial_metrics_safe info current_price).pbr = 0) ∧
    (info.returnOnEquity.getD 0 = 0 →
      (_calculate_financial_metrics_safe info current_price).roe = 0) ∧
    (∀ r : ℚ, info.returnOnEquity = some r → r ≠ 0 →
      (_calculate_financial_metrics_safe info current_price).roe =
        pyRound2 (r * 100)) ∧
    (info.dividendYield.getD 0 = 0 →
      (_calculate_financial_metrics_safe info current_price).dividend = 0) ∧
    (∀ r : ℚ, info.dividendYield = some r → r ≠ 0 →
      (_calculate_financial_metrics_safe info current_price).dividend =
        pyRound2 (r * 100)) := by
  refine ⟨?_, ?_, ?_, ?_, ?_, ?_⟩
  · intro h1 h2
    simp only [_calculate_financial_metrics_safe]
    rw [if_neg (not_lt.mpr h1), if_neg]
    intro hc
    exact absurd hc.1 (not_lt.mpr h2)
  · intro h1 h2
    simp only [_calculate_financial_metrics_safe]
    rw [if_neg (not_lt.mpr h1), if_neg]
    intro hc
    exact absurd hc.1 (not_lt.mpr h2)
  · intro h
    simp only [_calculate_financial_metrics_safe]
    rw [if_neg]
    simpa using h
  · intro r hr hne
    simp only [_calculate_financial_metrics_safe, hr, Option.getD_some]
    rw [if_pos hne]
  · intro h
    simp only [_calculate_financial_metrics_safe]
    rw [if_neg]
    simpa using h
  · intro r hr hne
    simp only [_calculate_financial_metrics_safe, hr, Option.getD_some]
    rw [if_pos hne]

/-- Witness for C4's amended theorem: the negative returnOnEquity fraction
−1/20 yields roe = round(−1/20 × 100, 2). -/
theorem C4_witness :
    (_calculate_financial_metrics_safe infoNeg 0).roe =
      pyRound2 ((-(1 : ℚ)/20) * 100) :=
  (C4_metric_defaults infoNeg 0).2.2.2.1 (-(1 : ℚ)/20) rfl (by norm_num)

/-- C5: `_fetch_with_retry` enters at most 3 attempts; a metadata-lookup
failure within an attempt is swallowed (the attempt continues with an
empty mapping and can still succeed); and if the history lookup raises on
all three attempts, the error of the 3rd attempt is the one propagated. -/
theorem C5_retry_behavior (p : Provider) (t : String) :
    ((_fetch_with_retry p t).attempts.length ≤ 3) ∧
    (∀ e0 e1 e2, p.histResult t 0 = .error e0 → p.histResult t 1 = .error e1 →
      p.histResult t 2 = .error e2 →
      (_fetch_with_retry p t).result = .error e2) ∧
    (∀ e bars, p.infoResult t 0 = .error e → p.histResult t 0 = .ok bars →
      bars ≠ [] → (_fetch_with_retry p t).result = .ok ({}, bars)) := by
  refine ⟨fetchLoop_attempts_length p t 3 0, ?_, ?_⟩
  · intro e0 e1 e2 h0 h1 h2
    simp [_fetch_with_retry, fetchLoop, h0, h1, h2, max_retries]
  · intro e bars he hb hne
    simp [_fetch_with_retry, fetchLoop, he, hb, hne, max_retries]

/-- Witness for C5 at a concrete provider raising on every attempt: the
final attempt's message "boom2" is the one propagated. -/
theorem C5_witness :
    (_fetch_with_retry providerAlwaysRaises (toTicker "0000")).result =
      .error "boom2" :=
  (C5_retry_behavior providerAlwaysRaises (toTicker "0000")).2.1
    "boom" "boom" "boom2" rfl rfl rfl

/-- C7: when no positive direct ratio is supplied and the relevant
denominators are non-positive, per and pbr are both 0 and no division
error occurs (the computation is total and never reaches a division). -/
theorem C7_no_divide_error (info : Metadata) (current_price : ℚ)
    (hpe : info.trailingPE.getD 0 ≤ 0) (heps : info.trailingEps.getD 0 ≤ 0)
    (hpb : info.priceToBook.getD 0 ≤ 0) (hbv : info.bookValue.getD 0 ≤ 0) :
    (_calculate_financial_metrics_safe info current_price).per = 0 ∧
    (_calculate_financial_metrics_safe info current_price).pbr = 0 := by
  constructor
  · simp only [_calculate_financial_metrics_safe]
    rw [if_neg (not_lt.mpr hpe), if_neg]
    intro hc
    exact absurd hc.1 (not_lt.mpr heps)
  · simp only [_calculate_financial_metrics_safe]
    rw [if_neg (not_lt.mpr hpb), if_neg]
    intro hc
    exact absurd hc.1 (not_lt.mpr hbv)

/-- Witness for C7 at metadata with every ratio source absent: per and pbr
are 0. -/
theorem C7_witness :
    (_calculate_financial_metrics_safe {} 150).per = 0 ∧
    (_calculate_financial_metrics_safe {} 150).pbr = 0 :=
  C7_no_divide_error {} 150 (by norm_num) (by norm_num) (by norm_num) (by norm_num)

end DataFetcher

namespace DataFetcher

/-- C6: if every retry attempt yields an empty 1-year series without
raising and every fallback window is also empty, `get_stock_data` returns
the wrapped not-found error, whose message contains the stock code, and no
report is produced. -/
theorem C6_data_unavailable (p : Provider) (stock_code : String)
    (hhist : ∀ i, p.histResult (toTicker stock_code) i = .ok [])
    (hfall : ∀ w, p.fallback (toTicker stock_code) w = .ok []) :
    get_stock_data p stock_code =
      .error (wrapMsg stock_code (notFoundMsg stock_code)) ∧
    ∃ a b, wrapMsg stock_code (notFoundMsg stock_code) = a ++ stock_code ++ b := by
  constructor
  · rcases hinfo : p.infoResult (toTicker stock_code) 2 with e | i <;>
      simp [get_stock_data, _fetch_with_retry, fetchLoop, hhist, hfall, hinfo,
        max_retries, _get_historical_data_fallback, fallbackLoop, fallbackPeriods]
  · refine ⟨"銘柄コード ", " のデータ取得に失敗しました: " ++ notFoundMsg stock_code, ?_⟩
    simp [wrapMsg, String.append_assoc]

/-- Witness for C6 at code "0000" with a provider empty for every window:
the propagated error message names the code twice. -/
theorem C6_witness :
    get_stock_data providerAllEmpty "0000" =
      .error
        "銘柄コード 0000 のデータ取得に失敗しました: 銘柄コード 0000 のデータが見つかりません" := by
  have h :=
    (C6_data_unavailable providerAllEmpty "0000" (fun _ => rfl) (fun _ => rfl)).1
  rw [h]
  rfl

/-- C8, as stated, is false on the code: the validation accepts the code
"１１１１" made of fullwidth (non-ASCII) digits — Python's `str.isdigit`
is true for them and the length is 4 — so a code that is not 4 ASCII
digits is not rejected with a 400 and reaches the fetch path. -/
theorem C8_counterexample :
    validateCode "１１１１" = true ∧
    isFourAsciiDigits "１１１１" = false ∧
    get_stock_info providerTwoBars "１１１１" ≠ .err 400 invalidCodeMsg := by
  refine ⟨by decide, by decide, ?_⟩
  simp only [get_stock_info]
  rw [if_neg (by decide)]
  rcases hgd : get_stock_data providerTwoBars "１１１１" with e | d <;> simp [hgd]

/-- C8 (amended): the endpoint rejects with a 400 exactly those codes
failing the Python check `isdigit() and len == 4`; every 4-ASCII-digit
code passes validation and reaches the fetch path, but the check is
weaker than the spec's StockCode invariant — some codes made of non-ASCII
Unicode digits also pass (see the counterexample). -/
theorem C8_validation (stock_code : String) (p : Provider) :
    (validateCode stock_code = false →
      get_stock_info p stock_code = .err 400 invalidCodeMsg) ∧
    (validateCode stock_code = true →
      get_stock_info p stock_code ≠ .err 400 invalidCodeMsg) ∧
    (isFourAsciiDigits stock_code = true → validateCode stock_code = true) := by
  refine ⟨?_, ?_, ?_⟩
  · intro h
    simp [get_stock_info, h]
  · intro h
    simp only [get_stock_info, h]
    rw [if_neg (by simp)]
    rcases hgd : get_stock_data p stock_code with e | d <;> simp [hgd]
  · intro h
    simp only [isFourAsciiDigits, Bool.and_eq_true, beq_iff_eq, List.all_eq_true] at h
    obtain ⟨hlen, hall⟩ := h
    simp only [validateCode, pyIsDigit, Bool.and_eq_true, beq_iff_eq,
      List.all_eq_true, decide_eq_true_eq]
    refine ⟨⟨?_, ?_⟩, hlen⟩
    · intro he
      rw [he] at hlen
      simp [String.length] at hlen
    · intro c hc
      have hd := hall c hc
      simp only [Bool.and_eq_true, decide_eq_true_eq] at hd
      simp only [pyIsDigitChar, decide_eq_true_eq]
      exact Or.inl hd

/-- Witness for C8's amended theorem: "72a3" is rejected with a 400 and
the ASCII-digit code "7203" passes validation. -/
theorem C8_witness :
    get_stock_info providerTwoBars "72a3" = .err 400 invalidCodeMsg ∧
    validateCode "7203" = true :=
  ⟨(C8_validation "72a3" providerTwoBars).1 (by decide),
   (C8_validation "7203" providerTwoBars).2.2 (by decide)⟩

/-- C9: every report returned successfully by `get_stock_data` has
data_quality = "good"; the "limited" branch is unreachable because an
empty post-fallback series raises before the report is assembled. -/
theorem C9_data_quality_good (p : Provider) (stock_code : String) (r : Report)
    (h : get_stock_data p stock_code = .ok r) : r.data_quality = "good" := by
  simp only [get_stock_data] at h
  rcases hres : (_fetch_with_retry p (toTicker stock_code)).result with e | ⟨si, hist0⟩
  · rw [hres] at h
    simp at h
  · rw [hres] at h
    simp only at h
    by_cases h0 :
        (if hist0 = [] then (_get_historical_data_fallback p (toTicker stock_code)).1
         else hist0) = []
    · rw [if_pos h0] at h
      simp at h
    · rw [if_neg h0] at h
      simp only [Except.ok.injEq] at h
      rw [← h]
      simp [h0]

/-- Witness for C9: the concrete report for "7203" from the two-bar
provider has data_quality = "good". -/
theorem C9_witness : reportTwoBars.data_quality = "good" := by
  refine C9_data_quality_good providerTwoBars "7203" reportTwoBars ?_
  have h105 : pyRound2 (105 : ℚ) = 105 := by simpa using pyRound2_intCast 105
  have h100 : pyRound2 (100 : ℚ) = 100 := by simpa using pyRound2_intCast 100
  have h5 : pyRound2 (5 : ℚ) = 5 := by simpa using pyRound2_intCast 5
  have hfetch : (_fetch_with_retry providerTwoBars (toTicker "7203")).result =
      .ok ({}, [⟨100, some 1000⟩, ⟨105, some 1200⟩]) := rfl
  simp only [get_stock_data, hfetch]
  simp only [List.cons_ne_nil, ite_false, if_false, if_neg, List.getLast?_cons_cons,
    List.getLast?_singleton, List.dropLast, _process_price_data]
  norm_num [h105, h100, h5, reportTwoBars]
  constructor
  · decide
  · decide

end DataFetcher

namespace DataFetcher

lemma specQualifies_eq_nameCandidate (v : Option MetaVal) :
    specQualifies v = nameCandidate v := by
  rcases v with _ | mv
  · rfl
  · rcases mv with s | _
    · simp only [specQualifies, nameCandidate]
      have hiff : pyStrip s ≠ "" ↔ (pyStrip s).length > 0 := by
        constructor
        · intro hne
          refine List.length_pos.mpr fun hd => hne ?_
          exact (string_eq_iff_data _ _).mpr hd
        · intro hp he
          rw [he] at hp
          simp at hp
      by_cases hp : (pyStrip s).length > 0
      · rw [if_pos (hiff.mpr hp), if_pos hp]
      · rw [if_neg (fun hne => hp (hiff.mp hne)), if_neg hp]
    · rfl

lemma nameCandidate_eq_some (v : Option MetaVal) (n : String)
    (h : nameCandidate v = some n) : ∃ s, n = pyStrip s ∧ n.data ≠ [] := by
  rcases v with _ | mv
  · simp [nameCandidate] at h
  · rcases mv with s | _
    · simp only [nameCandidate] at h
      by_cases hp : (pyStrip s).length > 0
      · rw [if_pos hp] at h
        injection h with h'
        subst h'
        exact ⟨s, rfl, List.length_pos.mp hp⟩
      · rw [if_neg hp] at h
        cases h
    · simp [nameCandidate] at h

lemma getLast?_mem_list (l : List Char) (a : Char) (h : l.getLast? = some a) :
    a ∈ l := by
  have hx : a ∈ l.getLast? := by simp [h]
  obtain ⟨hne, heq⟩ := List.mem_getLast?_eq_getLast hx
  rw [heq]
  exact List.getLast_mem hne

lemma digitChar_not_space (c : Char) (h : pyIsDigitChar c = true) :
    pyIsSpace c = false := by
  simp only [pyIsSpace, decide_eq_false_iff_not]
  rintro (rfl | rfl | rfl | rfl | rfl | rfl) <;> exact absurd h (by decide)

/-- C10: under a validated code, the company name of a report is nonempty,
has no leading or trailing whitespace, and equals the specification's
selection: the first qualifying candidate among longName, shortName, name
(stripped), else the synthesized "銘柄コード: " fallback. -/
theorem C10_company_name (info : Metadata) (stock_code : String)
    (hvalid : validateCode stock_code = true) :
    (_get_company_name info stock_code).data ≠ [] ∧
    (∀ c, (_get_company_name info stock_code).data.head? = some c →
      pyIsSpace c = false) ∧
    (∀ c, (_get_company_name info stock_code).data.getLast? = some c →
      pyIsSpace c = false) ∧
    _get_company_name info stock_code = companyNameSpec info stock_code := by
  have hspec : _get_company_name info stock_code = companyNameSpec info stock_code := by
    simp only [companyNameSpec, specQualifies_eq_nameCandidate, _get_company_name]
    rcases nameCandidate info.longName with _ | n
    · rcases nameCandidate info.shortName with _ | n
      · rcases nameCandidate info.name with _ | n <;> rfl
      · rfl
    · rfl
  have hsel :
      (∃ n, (∃ s, n = pyStrip s ∧ n.data ≠ []) ∧
        _get_company_name info stock_code = n) ∨
      _get_company_name info stock_code = "銘柄コード: " ++ stock_code := by
    rcases h1 : nameCandidate info.longName with _ | n
    · rcases h2 : nameCandidate info.shortName with _ | n
      · rcases h3 : nameCandidate info.name with _ | n
        · exact Or.inr (by simp [_get_company_name, h1, h2, h3])
        · exact Or.inl ⟨n, nameCandidate_eq_some _ _ h3,
            by simp [_get_company_name, h1, h2, h3]⟩
      · exact Or.inl ⟨n, nameCandidate_eq_some _ _ h2,
          by simp [_get_company_name, h1, h2]⟩
    · exact Or.inl ⟨n, nameCandidate_eq_some _ _ h1, by simp [_get_company_name, h1]⟩
  have hdigits : ∀ c ∈ stock_code.data, pyIsDigitChar c = true := by
    simp only [validateCode, pyIsDigit, Bool.and_eq_true, beq_iff_eq,
      List.all_eq_true, decide_eq_true_eq] at hvalid
    exact hvalid.1.2
  have hcode : stock_code.data ≠ [] := by
    simp only [validateCode, pyIsDigit, Bool.and_eq_true, beq_iff_eq,
      decide_eq_true_eq] at hvalid
    intro hd
    exact hvalid.1.1 ((string_eq_iff_data _ _).mpr hd)
  obtain ⟨n, ⟨s, rfl, hne⟩, heq⟩ | heq := hsel
  · refine ⟨?_, ?_, ?_, hspec⟩
    · rw [heq]; exact hne
    · rw [heq]
      intro c hc
      exact pyStrip_head_not_space s c hc
    · rw [heq]
      intro c hc
      exact pyStrip_getLast_not_space s c hc
  · refine ⟨?_, ?_, ?_, hspec⟩
    · rw [heq]
      intro hh
      rw [show ("銘柄コード: " ++ stock_code).data =
          "銘柄コード: ".data ++ stock_code.data from rfl] at hh
      exact absurd (List.append_eq_nil.mp hh).1 (by decide)
    · rw [heq]
      intro c hc
      rw [show ("銘柄コード: " ++ stock_code).data =
          '銘' :: ("柄コード: ".data ++ stock_code.data) from rfl] at hc
      simp only [List.head?_cons, Option.some.injEq] at hc
      subst hc
      decide
    · rw [heq]
      intro c hc
      rw [show ("銘柄コード: " ++ stock_code).data =
          "銘柄コード: ".data ++ stock_code.data from rfl,
        List.getLast?_append] at hc
      rcases hl : stock_code.data.getLast? with _ | c'
      · exact absurd (List.getLast?_eq_none_iff.mp hl) hcode
      · rw [hl] at hc
        have hc' : c' = c := by
          have : some c' = some c := hc
          injection this
        subst hc'
        exact digitChar_not_space c' (hdigits c' (getLast?_mem_list _ _ hl))

end DataFetcher

namespace DataFetcher

/-- Witness for C10 at metadata with a whitespace-only longName and a
padded shortName: the resulting name is nonempty and equals the
specification's selection. -/
theorem C10_witness :
    (_get_company_name infoPaddedName "7203").data ≠ [] ∧
    _get_company_name infoPaddedName "7203" =
      companyNameSpec infoPaddedName "7203" := by
  have h := C10_company_name infoPaddedName "7203" (by decide)
  exact ⟨h.1, h.2.2.2⟩

end DataFetcher
